import Mathlib

/-!
Verification of the page-grouped PDF extraction pipeline.

The definitions below are a shallow embedding of the JavaScript sources:
ApiService.js (group planning, retry wrapper, group streaming),
PDFHandler.js (PDF merge), server.js (the merge-pdfs endpoint shortcut and
the extract-table-data page loop), UIController.js (result accumulation)
and the EventHandler consumer of the group stream.  External effects
(inference calls, PDF byte slicing) are modelled by oracles: a function
giving the outcome of each attempt.
-/

namespace DocExtract

/-- Metadata record for one page group, as built by ApiService.processGroups
and ApiService.calculateGroupInfo: zero-based groupIndex, 1-based startPage
and endPage. -/
structure GroupInfo where
  groupIndex : Nat
  startPage : Nat
  endPage : Nat
  totalPages : Nat
  isLastGroup : Bool
deriving DecidableEq, Repr

/-- The fixed group size PAGES_PER_GROUP = 10 used throughout the code. -/
def PAGES_PER_GROUP : Nat := 10

/-- Math.ceil(totalPages / PAGES_PER_GROUP), the totalGroups count of the
processGroups loop. -/
def totalGroups (totalPages : Nat) : Nat :=
  (totalPages + PAGES_PER_GROUP - 1) / PAGES_PER_GROUP

/-- The group record built in the body of the processGroups loop for a given
groupIndex: startPage = groupIndex * PAGES_PER_GROUP (0-based, reported
1-based), endPage = Math.min(startPage + PAGES_PER_GROUP, totalPages),
isLastGroup = (endPage === totalPages). -/
def planGroup (totalPages groupIndex : Nat) : GroupInfo :=
  { groupIndex := groupIndex
    startPage := groupIndex * PAGES_PER_GROUP + 1
    endPage := min (groupIndex * PAGES_PER_GROUP + PAGES_PER_GROUP) totalPages
    totalPages := totalPages
    isLastGroup :=
      min (groupIndex * PAGES_PER_GROUP + PAGES_PER_GROUP) totalPages == totalPages }

/-- The ordered sequence of group records produced by the
ApiService.processGroups loop (groupIndex = 0 .. totalGroups - 1). -/
def processGroupsPlan (totalPages : Nat) : List GroupInfo :=
  (List.range (totalGroups totalPages)).map (planGroup totalPages)

/-- ApiService.calculateGroupInfo: groupIndex = Math.floor((pageNumber - 1) /
PAGES_PER_GROUP), startPage = groupIndex * PAGES_PER_GROUP + 1, endPage =
Math.min(startPage + PAGES_PER_GROUP - 1, totalPages). -/
def calculateGroupInfo (pageNumber totalPages : Nat) : GroupInfo :=
  { groupIndex := (pageNumber - 1) / PAGES_PER_GROUP
    startPage := (pageNumber - 1) / PAGES_PER_GROUP * PAGES_PER_GROUP + 1
    endPage :=
      min ((pageNumber - 1) / PAGES_PER_GROUP * PAGES_PER_GROUP + 1 + PAGES_PER_GROUP - 1)
        totalPages
    totalPages := totalPages
    isLastGroup :=
      min ((pageNumber - 1) / PAGES_PER_GROUP * PAGES_PER_GROUP + 1 + PAGES_PER_GROUP - 1)
        totalPages == totalPages }

lemma processGroupsPlan_length (tp : Nat) :
    (processGroupsPlan tp).length = totalGroups tp := by
  simp [processGroupsPlan]

lemma processGroupsPlan_get (tp i : Nat) (hi : i < (processGroupsPlan tp).length) :
    (processGroupsPlan tp).get ⟨i, hi⟩ = planGroup tp i := by
  simp [processGroupsPlan]

lemma lt_totalGroups_iff (tp i : Nat) : i < totalGroups tp ↔ 10 * i < tp := by
  unfold totalGroups PAGES_PER_GROUP
  omega

/-- The sentence of the claim about the shape of the group plan, stated for
an arbitrary page count. -/
def GroupPlanSound (tp : Nat) : Prop :=
  (processGroupsPlan tp).length = (tp + 9) / 10 ∧
  (∀ i (hi : i < (processGroupsPlan tp).length),
    ((processGroupsPlan tp).get ⟨i, hi⟩).groupIndex = i ∧
    ((processGroupsPlan tp).get ⟨i, hi⟩).startPage = i * PAGES_PER_GROUP + 1 ∧
    ((processGroupsPlan tp).get ⟨i, hi⟩).endPage =
      min (i * PAGES_PER_GROUP + PAGES_PER_GROUP) tp ∧
    ((processGroupsPlan tp).get ⟨i, hi⟩).totalPages = tp ∧
    ((processGroupsPlan tp).get ⟨i, hi⟩).startPage ≤
      ((processGroupsPlan tp).get ⟨i, hi⟩).endPage ∧
    (((processGroupsPlan tp).get ⟨i, hi⟩).isLastGroup = true ↔
      ((processGroupsPlan tp).get ⟨i, hi⟩).endPage = tp) ∧
    (((processGroupsPlan tp).get ⟨i, hi⟩).isLastGroup = true ↔
      i + 1 = (processGroupsPlan tp).length)) ∧
  (∀ i (hi : i + 1 < (processGroupsPlan tp).length),
    ((processGroupsPlan tp).get ⟨i + 1, hi⟩).startPage =
      ((processGroupsPlan tp).get ⟨i, by omega⟩).endPage + 1) ∧
  (∀ p, 1 ≤ p → p ≤ tp →
    ∃! g, g ∈ processGroupsPlan tp ∧ g.startPage ≤ p ∧ p ≤ g.endPage)

/-- C1: for every totalPages at least 1 the plan has ceil(totalPages/10)
groups, indexed 0.. in order, with contiguous non-overlapping 1-based ranges
partitioning [1, totalPages], isLastGroup true exactly on the group whose
endPage equals totalPages (which is the final group); totalPages = 25 yields
the three groups (1,10,false), (11,20,false), (21,25,true). -/
theorem C1_grouping_coverage (tp : Nat) (h : 1 ≤ tp) :
    GroupPlanSound tp ∧
    processGroupsPlan 25 =
      [{ groupIndex := 0, startPage := 1, endPage := 10, totalPages := 25,
         isLastGroup := false },
       { groupIndex := 1, startPage := 11, endPage := 20, totalPages := 25,
         isLastGroup := false },
       { groupIndex := 2, startPage := 21, endPage := 25, totalPages := 25,
         isLastGroup := true }] := by
  refine ⟨⟨?_, ?_, ?_, ?_⟩, by decide⟩
  · rw [processGroupsPlan_length]
    unfold totalGroups PAGES_PER_GROUP
    omega
  · intro i hi
    have hn := hi
    rw [processGroupsPlan_length, lt_totalGroups_iff] at hn
    rw [processGroupsPlan_get, processGroupsPlan_length]
    unfold planGroup PAGES_PER_GROUP
    refine ⟨rfl, rfl, rfl, rfl, by dsimp only; omega, by simp, ?_⟩
    simp only [beq_iff_eq]
    unfold totalGroups PAGES_PER_GROUP
    omega
  · intro i hi
    have hn := hi
    rw [processGroupsPlan_length, lt_totalGroups_iff] at hn
    rw [processGroupsPlan_get, processGroupsPlan_get]
    unfold planGroup PAGES_PER_GROUP
    dsimp only
    omega
  · intro p hp1 hp2
    refine ⟨planGroup tp ((p - 1) / 10), ⟨?_, ?_, ?_⟩, ?_⟩
    · unfold processGroupsPlan
      refine List.mem_map.mpr ⟨(p - 1) / 10, List.mem_range.mpr ?_, rfl⟩
      rw [lt_totalGroups_iff]
      omega
    · unfold planGroup PAGES_PER_GROUP
      simp only
      omega
    · unfold planGroup PAGES_PER_GROUP
      simp only
      omega
    · intro g hg
      obtain ⟨hmem, hlo, hhi⟩ := hg
      unfold processGroupsPlan at hmem
      obtain ⟨i, hi, rfl⟩ := List.mem_map.mp hmem
      rw [List.mem_range, lt_totalGroups_iff] at hi
      unfold planGroup PAGES_PER_GROUP at hlo hhi ⊢
      simp only at hlo hhi
      have : i = (p - 1) / 10 := by omega
      rw [this]

/-- Witness for C1 at totalPages = 25. -/
theorem C1_grouping_coverage_witness :
    GroupPlanSound 25 ∧
    processGroupsPlan 25 =
      [{ groupIndex := 0, startPage := 1, endPage := 10, totalPages := 25,
         isLastGroup := false },
       { groupIndex := 1, startPage := 11, endPage := 20, totalPages := 25,
         isLastGroup := false },
       { groupIndex := 2, startPage := 21, endPage := 25, totalPages := 25,
         isLastGroup := true }] :=
  C1_grouping_coverage 25 (by decide)

/-- C7: for every totalPages at least 1 and every page p in [1, totalPages],
calculateGroupInfo returns exactly the plan group whose range contains p,
field for field. -/
theorem C7_inverse_consistency (tp p : Nat) (htp : 1 ≤ tp) (hp1 : 1 ≤ p)
    (hp2 : p ≤ tp) :
    calculateGroupInfo p tp = planGroup tp ((p - 1) / PAGES_PER_GROUP) ∧
    calculateGroupInfo p tp ∈ processGroupsPlan tp ∧
    (calculateGroupInfo p tp).startPage ≤ p ∧
    p ≤ (calculateGroupInfo p tp).endPage ∧
    ∀ g ∈ processGroupsPlan tp,
      g.startPage ≤ p → p ≤ g.endPage → g = calculateGroupInfo p tp := by
  have heq : calculateGroupInfo p tp = planGroup tp ((p - 1) / PAGES_PER_GROUP) := by
    unfold calculateGroupInfo planGroup PAGES_PER_GROUP
    have harith :
        (p - 1) / 10 * 10 + 1 + 10 - 1 = (p - 1) / 10 * 10 + 10 := by omega
    rw [harith]
  refine ⟨heq, ?_, ?_, ?_, ?_⟩
  · rw [heq]
    unfold processGroupsPlan
    refine List.mem_map.mpr ⟨(p - 1) / PAGES_PER_GROUP, List.mem_range.mpr ?_, rfl⟩
    unfold PAGES_PER_GROUP
    rw [lt_totalGroups_iff]
    omega
  · unfold calculateGroupInfo PAGES_PER_GROUP
    simp only
    omega
  · unfold calculateGroupInfo PAGES_PER_GROUP
    simp only
    omega
  · intro g hmem hlo hhi
    rw [heq]
    unfold processGroupsPlan at hmem
    obtain ⟨i, hi, rfl⟩ := List.mem_map.mp hmem
    rw [List.mem_range, lt_totalGroups_iff] at hi
    unfold planGroup PAGES_PER_GROUP at hlo hhi ⊢
    simp only at hlo hhi
    have : i = (p - 1) / 10 := by omega
    rw [this]

/-- Witness for C7 at totalPages = 25, page 13. -/
theorem C7_inverse_consistency_witness :
    calculateGroupInfo 13 25 = planGroup 25 ((13 - 1) / PAGES_PER_GROUP) ∧
    calculateGroupInfo 13 25 ∈ processGroupsPlan 25 ∧
    (calculateGroupInfo 13 25).startPage ≤ 13 ∧
    13 ≤ (calculateGroupInfo 13 25).endPage ∧
    ∀ g ∈ processGroupsPlan 25,
      g.startPage ≤ 13 → 13 ≤ g.endPage → g = calculateGroupInfo 13 25 :=
  C7_inverse_consistency 25 13 (by decide) (by decide) (by decide)

/-- C8 counterexample: at totalPages = 0 the group-planning code raises no
InvalidArgument error at all; it simply produces the empty plan (the loop
body never runs), contradicting the claim that no plan is ever returned for
such inputs. -/
theorem C8_counterexample :
    processGroupsPlan 0 = [] ∧ totalGroups 0 = 0 := by decide

/-- C8 amended: the group-planning code performs no input validation; the
group size is fixed at PAGES_PER_GROUP = 10, and for every totalPages < 1
processGroups yields the empty sequence of groups without signalling any
error. -/
theorem C8_no_validation_amended (tp : Nat) (h : tp < 1) :
    processGroupsPlan tp = [] ∧ PAGES_PER_GROUP = 10 := by
  constructor
  · have : totalGroups tp = 0 := by
      unfold totalGroups PAGES_PER_GROUP
      omega
    unfold processGroupsPlan
    rw [this]
    rfl
  · rfl

/-- Witness for the amended C8 at totalPages = 0. -/
theorem C8_no_validation_amended_witness :
    processGroupsPlan 0 = [] ∧ PAGES_PER_GROUP = 10 :=
  C8_no_validation_amended 0 (by decide)

/-! ### Retry wrapper (ApiService.retryOperation) -/

/-- MAX_RETRIES = 5 from the ApiService constructor. -/
def MAX_RETRIES : Nat := 5

/-- Outcome of one invocation of the wrapped operation: it returns a value
(either a non-Response value or an ok Response), returns an HTTP-shaped
Response with ok = false (status plus the optional truthy error field of the
decoded JSON body), or throws with a message. -/
inductive AttemptOutcome (α : Type) where
  | success (value : α)
  | badResponse (status : Nat) (errorField : Option String)
  | thrown (message : String)
deriving DecidableEq, Repr

/-- The message of the Error thrown for a not-ok Response:
errorData.error when truthy, otherwise the template Server returned status. -/
def badResponseMessage (status : Nat) (errorField : Option String) : String :=
  match errorField with
  | some e => e
  | none => "Server returned " ++ toString status

/-- The error message an attempt produces, or none when it succeeds. -/
def failMessage {α : Type} : AttemptOutcome α → Option String
  | AttemptOutcome.success _ => none
  | AttemptOutcome.badResponse status errorField =>
      some (badResponseMessage status errorField)
  | AttemptOutcome.thrown m => some m

/-- The HTTP status an attempt records into lastResponse, if any. -/
def statusOf {α : Type} : AttemptOutcome α → Option Nat
  | AttemptOutcome.badResponse s _ => some s
  | _ => none

/-- Character-list test: pat occurs at the head of l. -/
def charsStartWith : List Char → List Char → Bool
  | [], _ => true
  | _ :: _, [] => false
  | a :: as, b :: bs => a == b && charsStartWith as bs

/-- Character-list test: pat occurs somewhere inside l. -/
def charsContain (pat : List Char) : List Char → Bool
  | [] => charsStartWith pat []
  | b :: bs => charsStartWith pat (b :: bs) || charsContain pat bs

/-- String.includes of the JavaScript source. -/
def strContains (s pat : String) : Bool := charsContain pat.data s.data

/-- The connection-failure test of retryOperation:
error.message.includes of Failed to fetch or ERR_CONNECTION_REFUSED. -/
def isConnectionMessage (m : String) : Bool :=
  strContains m "Failed to fetch" || strContains m "ERR_CONNECTION_REFUSED"

/-- The fixed message thrown when the final attempt hits a connection
failure. -/
def connectionFailMessage : String :=
  "Unable to connect to server. Please check if the server is running."

/-- The detailed message built after the retry loop ends without success. -/
def exhaustedMessage (groupInfo : String) (lastStatus : Option Nat)
    (lastError : Option String) : String :=
  "All " ++ toString MAX_RETRIES ++ " retry attempts failed for group " ++
    groupInfo ++ "." ++
  (match lastStatus with
   | some s => " Last status: " ++ toString s ++ "."
   | none => "") ++
  (match lastError with
   | some m => " Last error: " ++ m
   | none => "")

/-- Result of retryOperation: the value of the first successful attempt, or
the message of the Error finally thrown; attemptsUsed counts how many times
the wrapped operation was invoked. -/
inductive RetryResult (α : Type) where
  | ok (value : α) (attemptsUsed : Nat)
  | err (message : String) (attemptsUsed : Nat)
deriving DecidableEq, Repr

/-- The retry loop of ApiService.retryOperation, driven by the remaining
fuel: the attempt number is MAX_RETRIES - fuel, lastError and lastStatus
carry the mutable lastError and lastResponse.status variables.  On the last
attempt a connection-type error message throws the fixed connection message;
after the loop the detailed exhausted message is thrown. -/
def retryLoop {α : Type} (op : Nat → AttemptOutcome α) (groupInfo : String) :
    Nat → Option String → Option Nat → RetryResult α
  | 0, lastError, lastStatus =>
      RetryResult.err (exhaustedMessage groupInfo lastStatus lastError) MAX_RETRIES
  | fuel + 1, lastError, lastStatus =>
      match op (MAX_RETRIES - fuel) with
      | AttemptOutcome.success v => RetryResult.ok v (MAX_RETRIES - fuel)
      | AttemptOutcome.badResponse s e =>
          if isConnectionMessage (badResponseMessage s e) && fuel == 0 then
            RetryResult.err connectionFailMessage MAX_RETRIES
          else
            retryLoop op groupInfo fuel (some (badResponseMessage s e)) (some s)
      | AttemptOutcome.thrown m =>
          if isConnectionMessage m && fuel == 0 then
            RetryResult.err connectionFailMessage MAX_RETRIES
          else
            retryLoop op groupInfo fuel (some m) lastStatus

/-- ApiService.retryOperation: run up to MAX_RETRIES attempts of op. -/
def retryOperation {α : Type} (op : Nat → AttemptOutcome α)
    (groupInfo : String) : RetryResult α :=
  retryLoop op groupInfo MAX_RETRIES none none

/-- The value of the lastResponse.status variable after attempts 1..k: the
status of the most recent not-ok Response, if any. -/
def lastStatusThrough {α : Type} (op : Nat → AttemptOutcome α) : Nat → Option Nat
  | 0 => none
  | k + 1 =>
      match statusOf (op (k + 1)) with
      | some s => some s
      | none => lastStatusThrough op k

lemma retryLoop_step_fail {α : Type} (op : Nat → AttemptOutcome α)
    (gi : String) (fuel : Nat) (lastE : Option String) (lastS : Option Nat)
    (hfuel : fuel ≠ 0) (hfail : failMessage (op (MAX_RETRIES - fuel)) ≠ none) :
    retryLoop op gi (fuel + 1) lastE lastS =
      retryLoop op gi fuel (failMessage (op (MAX_RETRIES - fuel)))
        (match statusOf (op (MAX_RETRIES - fuel)) with
         | some s => some s
         | none => lastS) := by
  rcases h : op (MAX_RETRIES - fuel) with v | ⟨s, e⟩ | m
  · rw [h] at hfail
    simp [failMessage] at hfail
  · rw [retryLoop, h]
    have hf : (fuel == 0) = false := by
      simpa using hfuel
    simp [hf, failMessage, statusOf]
  · rw [retryLoop, h]
    have hf : (fuel == 0) = false := by
      simpa using hfuel
    simp [hf, failMessage, statusOf]

lemma retryLoop_last_fail {α : Type} (op : Nat → AttemptOutcome α)
    (gi : String) (lastE : Option String) (lastS : Option Nat)
    (hfail : failMessage (op MAX_RETRIES) ≠ none) :
    retryLoop op gi 1 lastE lastS =
      if isConnectionMessage ((failMessage (op MAX_RETRIES)).getD "") then
        RetryResult.err connectionFailMessage MAX_RETRIES
      else
        RetryResult.err
          (exhaustedMessage gi
            (match statusOf (op MAX_RETRIES) with
             | some s => some s
             | none => lastS)
            (failMessage (op MAX_RETRIES)))
          MAX_RETRIES := by
  have h5 : MAX_RETRIES - 0 = MAX_RETRIES := rfl
  rcases h : op MAX_RETRIES with v | ⟨s, e⟩ | m
  · rw [h] at hfail
    simp [failMessage] at hfail
  · rw [retryLoop, h5, h]
    by_cases hc : isConnectionMessage (badResponseMessage s e)
    · simp [hc, failMessage, h]
    · simp [hc, failMessage, statusOf, h, retryLoop]
  · rw [retryLoop, h5, h]
    by_cases hc : isConnectionMessage m
    · simp [hc, failMessage, h]
    · simp [hc, failMessage, statusOf, h, retryLoop]

lemma retryLoop_reach_success {α : Type} (op : Nat → AttemptOutcome α)
    (gi : String) :
    ∀ fuel, 1 ≤ fuel → fuel ≤ MAX_RETRIES →
    ∀ k v, MAX_RETRIES - fuel + 1 ≤ k → k ≤ MAX_RETRIES →
    (∀ i, MAX_RETRIES - fuel + 1 ≤ i → i < k → failMessage (op i) ≠ none) →
    op k = AttemptOutcome.success v →
    ∀ lastE lastS, retryLoop op gi fuel lastE lastS = RetryResult.ok v k := by
  intro fuel
  induction fuel with
  | zero => omega
  | succ f ih =>
      intro _ hle k v hk1 hk2 hfails hk lastE lastS
      by_cases hkeq : k = MAX_RETRIES - f
      · subst hkeq
        rw [retryLoop, hk]
      · have hgt : MAX_RETRIES - f < k := by omega
        have hf1 : 1 ≤ f := by omega
        rw [retryLoop_step_fail op gi f lastE lastS (by omega)
          (hfails (MAX_RETRIES - f) (by omega) hgt)]
        exact ih hf1 (by omega) k v (by omega) hk2
          (fun i hi1 hi2 => hfails i (by omega) hi2) hk _ _

lemma retryLoop_all_fail {α : Type} (op : Nat → AttemptOutcome α)
    (gi : String) :
    ∀ fuel, 1 ≤ fuel → fuel ≤ MAX_RETRIES →
    (∀ i, MAX_RETRIES - fuel + 1 ≤ i → i ≤ MAX_RETRIES → failMessage (op i) ≠ none) →
    ∀ lastS,
    (lastStatusThrough op (MAX_RETRIES - fuel) = lastS) →
    ∀ lastE,
    retryLoop op gi fuel lastE lastS =
      if isConnectionMessage ((failMessage (op MAX_RETRIES)).getD "") then
        RetryResult.err connectionFailMessage MAX_RETRIES
      else
        RetryResult.err
          (exhaustedMessage gi (lastStatusThrough op MAX_RETRIES)
            (failMessage (op MAX_RETRIES)))
          MAX_RETRIES := by
  intro fuel
  induction fuel with
  | zero => omega
  | succ f ih =>
      intro _ hle hfails lastS hstat lastE
      by_cases hf0 : f = 0
      · subst hf0
        have h5 : MAX_RETRIES - 1 = 4 := rfl
        rw [retryLoop_last_fail op gi lastE lastS
          (hfails MAX_RETRIES (by omega) (by omega))]
        by_cases hc : isConnectionMessage ((failMessage (op MAX_RETRIES)).getD "")
        · simp [hc]
        · simp only [hc, if_false]
          have : (match statusOf (op MAX_RETRIES) with
                  | some s => some s
                  | none => lastS) = lastStatusThrough op MAX_RETRIES := by
            rw [← hstat]
            rcases hs : statusOf (op MAX_RETRIES) with _ | s
            · have : lastStatusThrough op MAX_RETRIES =
                  lastStatusThrough op (MAX_RETRIES - 1) := by
                show lastStatusThrough op (4 + 1) = _
                rw [lastStatusThrough]
                have h45 : (4 : Nat) + 1 = MAX_RETRIES := rfl
                rw [h45, hs]
                rfl
              rw [this]
            · have : lastStatusThrough op MAX_RETRIES = some s := by
                show lastStatusThrough op (4 + 1) = _
                rw [lastStatusThrough]
                have h45 : (4 : Nat) + 1 = MAX_RETRIES := rfl
                rw [h45, hs]
              rw [this]
          rw [this]
      · have hf1 : 1 ≤ f := by omega
        rw [retryLoop_step_fail op gi f lastE lastS hf0
          (hfails (MAX_RETRIES - f) (by omega) (by omega))]
        apply ih hf1 (by omega)
          (fun i hi1 hi2 => hfails i (by omega) hi2)
        have hsf : MAX_RETRIES - f = (MAX_RETRIES - (f + 1)) + 1 := by omega
        rw [hsf, lastStatusThrough]
        rw [← hsf, hstat]

/-- C4 counterexample: an operation that throws Failed to fetch on every
attempt is indeed invoked 5 times, but the error finally thrown is the fixed
connection message, which carries neither the last error message nor any
status, contradicting the claim that the retries-exhausted error always
carries the last error message. -/
theorem C4_counterexample :
    retryOperation (fun _ => (AttemptOutcome.thrown "Failed to fetch" :
      AttemptOutcome Nat)) "3" = RetryResult.err connectionFailMessage 5 ∧
    strContains connectionFailMessage "Failed to fetch" = false := by
  constructor
  · rfl
  · rfl

/-- C4 amended: an operation succeeding first on attempt k at most 5 is
invoked exactly k times and its value returned unchanged; an operation that
fails on every attempt is invoked exactly MAX_RETRIES = 5 times and the
wrapper then reports an error with the last error message and the last
not-ok status when available, except that when the final failure is a
connection-type error the fixed connection message is reported instead. -/
theorem C4_retry_bound_amended {α : Type} (op : Nat → AttemptOutcome α)
    (groupInfo : String) :
    (∀ k v, 1 ≤ k → k ≤ MAX_RETRIES →
      (∀ i, 1 ≤ i → i < k → failMessage (op i) ≠ none) →
      op k = AttemptOutcome.success v →
      retryOperation op groupInfo = RetryResult.ok v k) ∧
    ((∀ i, 1 ≤ i → i ≤ MAX_RETRIES → failMessage (op i) ≠ none) →
      retryOperation op groupInfo =
        if isConnectionMessage ((failMessage (op MAX_RETRIES)).getD "") then
          RetryResult.err connectionFailMessage MAX_RETRIES
        else
          RetryResult.err
            (exhaustedMessage groupInfo (lastStatusThrough op MAX_RETRIES)
              (failMessage (op MAX_RETRIES)))
            MAX_RETRIES) := by
  constructor
  · intro k v hk1 hk2 hfails hk
    exact retryLoop_reach_success op groupInfo MAX_RETRIES (by decide)
      (le_refl _) k v (by omega) hk2
      (fun i hi1 hi2 => hfails i (by omega) hi2) hk none none
  · intro hfails
    exact retryLoop_all_fail op groupInfo MAX_RETRIES (by decide) (le_refl _)
      (fun i hi1 hi2 => hfails i (by omega) hi2) none rfl none

/-- Witness for the amended C4: success on attempt 3 after two failures, and
a non-connection failure on all 5 attempts. -/
theorem C4_retry_bound_amended_witness :
    retryOperation
      (fun i => if i = 3 then AttemptOutcome.success 42
                else (AttemptOutcome.thrown "boom" : AttemptOutcome Nat)) "2" =
      RetryResult.ok 42 3 ∧
    retryOperation (fun _ => (AttemptOutcome.thrown "boom" :
      AttemptOutcome Nat)) "2" =
      RetryResult.err
        "All 5 retry attempts failed for group 2. Last error: boom" 5 := by
  constructor
  · exact (C4_retry_bound_amended
      (fun i => if i = 3 then AttemptOutcome.success 42
                else (AttemptOutcome.thrown "boom" : AttemptOutcome Nat)) "2").1
      3 42 (by decide) (by decide)
      (by
        intro i h1 h2
        have : i ≠ 3 := by omega
        simp [this, failMessage])
      (by simp)
  · have h := (C4_retry_bound_amended (fun _ =>
      (AttemptOutcome.thrown "boom" : AttemptOutcome Nat)) "2").2
      (by intro i h1 h2; simp [failMessage])
    rw [h]
    rfl

/-! ### Field-mode stream (ApiService.processGroups, EventHandler
startGroupProcessing) and accumulator (UIController.updateTableWithGroupData) -/

/-- One field value as returned by extract-data-group: value (null allowed)
and the type tag text or date. -/
structure FieldValue where
  value : Option String
  type : String
deriving DecidableEq, Repr

/-- One extracted page of field mode: pageNumber and the fieldName to value
mapping. -/
structure ExtractedPage where
  pageNumber : Nat
  fields : List (String × FieldValue)
deriving DecidableEq, Repr

/-- The comparator a.pageNumber - b.pageNumber of the JavaScript sort calls,
as the ordering it induces. -/
def pageNumberLe (a b : ExtractedPage) : Prop := a.pageNumber ≤ b.pageNumber

instance : DecidableRel pageNumberLe := fun a b => Nat.decLe _ _

instance : IsTotal ExtractedPage pageNumberLe :=
  ⟨fun a b => Nat.le_total a.pageNumber b.pageNumber⟩

instance : IsTrans ExtractedPage pageNumberLe :=
  ⟨fun _ _ _ h1 h2 => Nat.le_trans h1 h2⟩

/-- The stable ascending sort by pageNumber used on the accumulated pages. -/
def sortPages (l : List ExtractedPage) : List ExtractedPage :=
  l.insertionSort pageNumberLe

/-- UIController.updateTableWithGroupData on the accumulated pages: push the
new pages of the group, then sort the whole set by pageNumber. -/
def updateTableWithGroupData (acc newPages : List ExtractedPage) :
    List ExtractedPage :=
  sortPages (acc ++ newPages)

/-- Repeated ingestion: fold updateTableWithGroupData over a sequence of
page batches, starting from an accumulator value. -/
def ingestAll (acc : List ExtractedPage) (batches : List (List ExtractedPage)) :
    List ExtractedPage :=
  batches.foldl updateTableWithGroupData acc

/-- One record yielded by the processGroups async generator. -/
inductive GroupYield where
  | success (pages : List ExtractedPage) (groupInfo : GroupInfo)
  | failure (error : String) (groupInfo : GroupInfo)
deriving DecidableEq, Repr

/-- The yield sequence of the processGroups loop over a list of group
records: each group invokes the (retry-wrapped) extraction, modelled by the
oracle extract from groupIndex to pages or final error; on the first error
the generator yields the failure record and breaks. -/
def runGroups (extract : Nat → Except String (List ExtractedPage)) :
    List GroupInfo → List GroupYield
  | [] => []
  | g :: rest =>
      match extract g.groupIndex with
      | Except.ok pages => GroupYield.success pages g :: runGroups extract rest
      | Except.error e => [GroupYield.failure e g]

/-- ApiService.processGroups: stream the plan of totalPages through the
per-group extraction. -/
def processGroupsRun (extract : Nat → Except String (List ExtractedPage))
    (totalPages : Nat) : List GroupYield :=
  runGroups extract (processGroupsPlan totalPages)

/-- The consumer loop of EventHandler.startGroupProcessing: on a success
yield, feed the pages into updateTableWithGroupData; on a failure yield,
throw an Error naming the failed group, which the surrounding catch shows to
the user.  Returns the final accumulated pages and the surfaced error. -/
def consumeYields (acc : List ExtractedPage) :
    List GroupYield → List ExtractedPage × Option String
  | [] => (acc, none)
  | GroupYield.success pages _ :: rest =>
      consumeYields (updateTableWithGroupData acc pages) rest
  | GroupYield.failure e g :: _ =>
      (acc, some ("Failed to process group " ++ toString (g.groupIndex + 1) ++
        ": " ++ e))

/-- EventHandler.startGroupProcessing: drive the generator from an empty
accumulator. -/
def startGroupProcessing (extract : Nat → Except String (List ExtractedPage))
    (totalPages : Nat) : List ExtractedPage × Option String :=
  consumeYields [] (processGroupsRun extract totalPages)

lemma runGroups_ok_front (extract : Nat → Except String (List ExtractedPage))
    (data : Nat → List ExtractedPage) :
    ∀ l1 l2, (∀ g ∈ l1, extract g.groupIndex = Except.ok (data g.groupIndex)) →
    runGroups extract (l1 ++ l2) =
      l1.map (fun g => GroupYield.success (data g.groupIndex) g) ++
        runGroups extract l2 := by
  intro l1
  induction l1 with
  | nil => intro l2 _; rfl
  | cons g gs ih =>
      intro l2 h
      have hg : extract g.groupIndex = Except.ok (data g.groupIndex) :=
        h g (List.mem_cons_self g gs)
      simp only [List.cons_append, runGroups, hg, List.map_cons, List.append_eq]
      rw [ih l2 (fun x hx => h x (List.mem_cons_of_mem g hx))]

lemma consumeYields_success_front (pairs : List (List ExtractedPage × GroupInfo)) :
    ∀ acc tail,
    consumeYields acc
        (pairs.map (fun x => GroupYield.success x.1 x.2) ++ tail) =
      consumeYields (ingestAll acc (pairs.map Prod.fst)) tail := by
  induction pairs with
  | nil => intro acc tail; rfl
  | cons p ps ih =>
      intro acc tail
      simp only [List.map_cons, List.cons_append, consumeYields, List.append_eq]
      rw [ih]
      rfl

lemma updateTable_perm (acc ps : List ExtractedPage) :
    (updateTableWithGroupData acc ps).Perm (acc ++ ps) :=
  List.perm_insertionSort pageNumberLe (acc ++ ps)

lemma ingestAll_perm :
    ∀ (batches : List (List ExtractedPage)) (acc : List ExtractedPage),
    (ingestAll acc batches).Perm (acc ++ batches.flatten) := by
  intro batches
  induction batches with
  | nil => intro acc; simp [ingestAll]
  | cons b bs ih =>
      intro acc
      have h1 : ingestAll acc (b :: bs) = ingestAll (updateTableWithGroupData acc b) bs := rfl
      rw [h1]
      refine (ih (updateTableWithGroupData acc b)).trans ?_
      have h2 : (updateTableWithGroupData acc b).Perm (acc ++ b) :=
        updateTable_perm acc b
      refine (h2.append_right bs.flatten).trans ?_
      simp [List.append_assoc]

lemma ingestAll_sorted :
    ∀ (batches : List (List ExtractedPage)) (acc : List ExtractedPage),
    List.Sorted pageNumberLe acc →
    List.Sorted pageNumberLe (ingestAll acc batches) := by
  intro batches
  induction batches with
  | nil => intro acc h; exact h
  | cons b bs ih =>
      intro acc _
      exact ih _ (List.sorted_insertionSort pageNumberLe (acc ++ b))

/-- C2: when groups 0..j-1 extract successfully and group j exhausts its
retries, the stream yields exactly the j success records in increasing
groupIndex order followed by one failure record for group j and nothing
after it; the accumulated result holds exactly the pages of the completed
groups (sorted by pageNumber), and the surfaced error names group j. -/
theorem C2_field_abort (extract : Nat → Except String (List ExtractedPage))
    (data : Nat → List ExtractedPage) (tp j : Nat) (e : String)
    (hj : j < totalGroups tp)
    (hsucc : ∀ i, i < j → extract i = Except.ok (data i))
    (hfail : extract j = Except.error e) :
    processGroupsRun extract tp =
      (List.range j).map
        (fun i => GroupYield.success (data i) (planGroup tp i)) ++
        [GroupYield.failure e (planGroup tp j)] ∧
    (startGroupProcessing extract tp).2 =
      some ("Failed to process group " ++ toString (j + 1) ++ ": " ++ e) ∧
    ((startGroupProcessing extract tp).1).Perm
      (((List.range j).map data).flatten) ∧
    List.Sorted pageNumberLe (startGroupProcessing extract tp).1 := by
  have hlen : j < (processGroupsPlan tp).length := by
    rw [processGroupsPlan_length]
    exact hj
  have htake : (processGroupsPlan tp).take j = (List.range j).map (planGroup tp) := by
    unfold processGroupsPlan
    rw [← List.map_take, List.take_range]
    have : min j (totalGroups tp) = j := by omega
    rw [this]
  have hsplit : processGroupsPlan tp =
      (List.range j).map (planGroup tp) ++
        (planGroup tp j :: (processGroupsPlan tp).drop (j + 1)) := by
    conv_lhs => rw [← List.take_append_drop j (processGroupsPlan tp)]
    rw [htake]
    congr 1
    rw [List.drop_eq_getElem_cons hlen]
    rw [show (processGroupsPlan tp)[j] = planGroup tp j from
      processGroupsPlan_get tp j hlen]
  have hrun : processGroupsRun extract tp =
      ((List.range j).map (planGroup tp)).map
        (fun g => GroupYield.success (data g.groupIndex) g) ++
        [GroupYield.failure e (planGroup tp j)] := by
    unfold processGroupsRun
    rw [hsplit]
    rw [runGroups_ok_front extract data _ _ ?hpre]
    case hpre =>
      intro g hg
      obtain ⟨i, hi, rfl⟩ := List.mem_map.mp hg
      rw [List.mem_range] at hi
      exact hsucc i hi
    congr 1
    show runGroups extract (planGroup tp j :: _) = _
    rw [runGroups]
    have hgi : (planGroup tp j).groupIndex = j := rfl
    rw [hgi, hfail]
  have hrun2 : processGroupsRun extract tp =
      (List.range j).map
        (fun i => GroupYield.success (data i) (planGroup tp i)) ++
        [GroupYield.failure e (planGroup tp j)] := by
    rw [hrun, List.map_map]
    rfl
  have hpairs :
      (List.range j).map (fun i => GroupYield.success (data i) (planGroup tp i)) =
        ((List.range j).map (fun i => (data i, planGroup tp i))).map
          (fun x => GroupYield.success x.1 x.2) := by
    rw [List.map_map]
    rfl
  have hconsume : startGroupProcessing extract tp =
      (ingestAll [] ((List.range j).map data),
        some ("Failed to process group " ++ toString (j + 1) ++ ": " ++ e)) := by
    unfold startGroupProcessing
    rw [hrun2, hpairs, consumeYields_success_front]
    have hfst : ((List.range j).map (fun i => (data i, planGroup tp i))).map
        Prod.fst = (List.range j).map data := by
      rw [List.map_map]
      rfl
    rw [hfst]
    have hgi : (planGroup tp j).groupIndex = j := rfl
    simp [consumeYields, hgi]
  refine ⟨hrun2, ?_, ?_, ?_⟩
  · rw [hconsume]
  · rw [hconsume]
    simpa using ingestAll_perm ((List.range j).map data) []
  · rw [hconsume]
    exact ingestAll_sorted _ [] (List.sorted_nil)

/-- Witness for C2: a 25-page plan (3 groups) where group 0 succeeds and
group 1 fails. -/
theorem C2_field_abort_witness :
    processGroupsRun
        (fun i => if i = 0 then Except.ok [⟨1, []⟩] else Except.error "bad")
        25 =
      (List.range 1).map
        (fun i => GroupYield.success ((fun _ => [(⟨1, []⟩ : ExtractedPage)]) i)
          (planGroup 25 i)) ++
        [GroupYield.failure "bad" (planGroup 25 1)] ∧
    (startGroupProcessing
        (fun i => if i = 0 then Except.ok [⟨1, []⟩] else Except.error "bad")
        25).2 =
      some ("Failed to process group " ++ toString (1 + 1) ++ ": " ++ "bad") ∧
    ((startGroupProcessing
        (fun i => if i = 0 then Except.ok [⟨1, []⟩] else Except.error "bad")
        25).1).Perm
      (((List.range 1).map (fun _ => [(⟨1, []⟩ : ExtractedPage)])).flatten) ∧
    List.Sorted pageNumberLe
      (startGroupProcessing
        (fun i => if i = 0 then Except.ok [⟨1, []⟩] else Except.error "bad")
        25).1 :=
  C2_field_abort
    (fun i => if i = 0 then Except.ok [⟨1, []⟩] else Except.error "bad")
    (fun _ => [(⟨1, []⟩ : ExtractedPage)]) 25 1 "bad" (by decide)
    (by intro i hi; interval_cases i; rfl) (by rfl)

/-- C6: ingesting any sequence of batches whose pageNumbers are pairwise
distinct keeps the accumulated pages sorted ascending by pageNumber after
every ingest, with length equal to the number of distinct pages ingested so
far, and never loses a previously ingested page. -/
theorem C6_accumulator_monotone (batches : List (List ExtractedPage))
    (hnodup : ((batches.flatten).map ExtractedPage.pageNumber).Nodup) :
    ∀ k, k ≤ batches.length →
      List.Sorted pageNumberLe (ingestAll [] (batches.take k)) ∧
      (ingestAll [] (batches.take k)).Perm ((batches.take k).flatten) ∧
      (ingestAll [] (batches.take k)).length =
        ((batches.take k).flatten).length ∧
      (((ingestAll [] (batches.take k)).map ExtractedPage.pageNumber).Nodup) ∧
      ∀ p ∈ (batches.take k).flatten, p ∈ ingestAll [] (batches.take k) := by
  intro k _
  have hperm : (ingestAll [] (batches.take k)).Perm ((batches.take k).flatten) := by
    simpa using ingestAll_perm (batches.take k) []
  refine ⟨ingestAll_sorted _ [] List.sorted_nil, hperm, hperm.length_eq, ?_, ?_⟩
  · have hsub : ((batches.take k).flatten.map ExtractedPage.pageNumber).Nodup := by
      have hdecomp : batches.flatten =
          (batches.take k).flatten ++ (batches.drop k).flatten := by
        rw [← List.flatten_append, List.take_append_drop]
      have htake : (batches.take k).flatten.Sublist batches.flatten := by
        rw [hdecomp]
        exact List.sublist_append_left _ _
      exact List.Nodup.sublist (htake.map ExtractedPage.pageNumber) hnodup
    exact ((hperm.map ExtractedPage.pageNumber).nodup_iff).mpr hsub
  · intro p hp
    exact hperm.mem_iff.mpr hp

/-- Witness for C6 with two out-of-order singleton batches. -/
theorem C6_accumulator_monotone_witness :
    ((([[({ pageNumber := 2, fields := [] } : ExtractedPage)],
        [({ pageNumber := 1, fields := [] } : ExtractedPage)]].flatten).map
          ExtractedPage.pageNumber).Nodup) ∧
    ∀ k, k ≤ ([[({ pageNumber := 2, fields := [] } : ExtractedPage)],
        [({ pageNumber := 1, fields := [] } : ExtractedPage)]] :
          List (List ExtractedPage)).length →
      List.Sorted pageNumberLe
        (ingestAll [] (([[{ pageNumber := 2, fields := [] }],
          [{ pageNumber := 1, fields := [] }]] :
            List (List ExtractedPage)).take k)) ∧
      (ingestAll [] (([[{ pageNumber := 2, fields := [] }],
          [{ pageNumber := 1, fields := [] }]] :
            List (List ExtractedPage)).take k)).Perm
        ((([[{ pageNumber := 2, fields := [] }],
          [{ pageNumber := 1, fields := [] }]] :
            List (List ExtractedPage)).take k).flatten) ∧
      (ingestAll [] (([[{ pageNumber := 2, fields := [] }],
          [{ pageNumber := 1, fields := [] }]] :
            List (List ExtractedPage)).take k)).length =
        ((([[{ pageNumber := 2, fields := [] }],
          [{ pageNumber := 1, fields := [] }]] :
            List (List ExtractedPage)).take k).flatten).length ∧
      ((ingestAll [] (([[{ pageNumber := 2, fields := [] }],
          [{ pageNumber := 1, fields := [] }]] :
            List (List ExtractedPage)).take k)).map
              ExtractedPage.pageNumber).Nodup ∧
      ∀ p ∈ (([[{ pageNumber := 2, fields := [] }],
          [{ pageNumber := 1, fields := [] }]] :
            List (List ExtractedPage)).take k).flatten,
        p ∈ ingestAll [] (([[{ pageNumber := 2, fields := [] }],
          [{ pageNumber := 1, fields := [] }]] :
            List (List ExtractedPage)).take k) :=
  ⟨by decide,
   C6_accumulator_monotone
     [[{ pageNumber := 2, fields := [] }], [{ pageNumber := 1, fields := [] }]]
     (by decide)⟩

/-! ### Table mode (server.js POST extract-table-data) -/

/-- The tableData record of one extracted table page. -/
structure TableData where
  headers : List String
  rows : List (List String)
deriving DecidableEq, Repr

/-- One page entry pushed into extractedData.pages. -/
structure TablePage where
  pageNumber : Nat
  tableData : TableData
deriving DecidableEq, Repr

/-- The regex replace of [newline or carriage return]+ by one space applied
to every cell: a run of newline characters collapses to a single space. -/
def collapseNewlineRun : Bool → List Char → List Char
  | _, [] => []
  | afterNL, c :: rest =>
      if c == '\r' || c == '\n' then
        if afterNL then collapseNewlineRun true rest
        else ' ' :: collapseNewlineRun true rest
      else c :: collapseNewlineRun false rest

/-- Sanitize one cell: replace newline runs by spaces. -/
def sanitizeCell (s : String) : String := String.mk (collapseNewlineRun false s.data)

/-- Sanitize a parsed rows array cell by cell. -/
def sanitizeRows (rows : List (List String)) : List (List String) :=
  rows.map (fun row => row.map sanitizeCell)

/-- Outcome of one header-extraction attempt: the inference call or the
JSON.parse threw with a message, or parsing produced a value: some xs when
the value is an array (possibly empty), none when it is not an array or is
falsy. -/
inductive HeaderOutcome where
  | err (message : String)
  | parsed (value : Option (List String))
deriving DecidableEq, Repr

/-- The number of header-extraction attempts in the server retry loop. -/
def HEADER_MAX_ATTEMPTS : Nat := 3

/-- The header retry loop: attempts 1..3; a parse success breaks with the
parsed value; an error on attempt 3 is rethrown, ending the request.  Fuel 0
corresponds to the loop ending with the initial headers value, the empty
array (unreachable, kept for totality). -/
def headerLoopFuel (h : Nat → HeaderOutcome) : Nat → Except String (Option (List String))
  | 0 => Except.ok (some [])
  | fuel + 1 =>
      match h (HEADER_MAX_ATTEMPTS - fuel) with
      | HeaderOutcome.parsed v => Except.ok v
      | HeaderOutcome.err m =>
          if fuel == 0 then Except.error m else headerLoopFuel h fuel

/-- The whole header phase of the endpoint. -/
def headerLoop (h : Nat → HeaderOutcome) : Except String (Option (List String)) :=
  headerLoopFuel h HEADER_MAX_ATTEMPTS

/-- The hardcoded fallback headers of server.js. -/
def defaultHeaders : List String := ["Date", "Description", "Amount", "Balance"]

/-- The fallback check after the header loop: if headers is falsy, not an
array, or an empty array, use the defaults. -/
def resolveHeaders : Option (List String) → List String
  | some xs => if xs.isEmpty then defaultHeaders else xs
  | none => defaultHeaders

/-- The per-page retry loop: attempts 1..5 of the page oracle (inference
plus parse), giving the rows of the first attempt that succeeds. -/
def pageAttempts (f : Nat → Option (List (List String))) :
    Option (List (List String)) :=
  (List.range 5).findSome? (fun k => f (k + 1))

/-- The entry pushed for one page: the sanitized rows of the first
successful attempt, or an empty-rows entry with the shared headers after all
5 attempts fail. -/
def extractPageEntry (oracle : Nat → Nat → Option (List (List String)))
    (headers : List String) (pageNum : Nat) : TablePage :=
  match pageAttempts (oracle pageNum) with
  | some rows =>
      { pageNumber := pageNum
        tableData := { headers := headers, rows := sanitizeRows rows } }
  | none =>
      { pageNumber := pageNum
        tableData := { headers := headers, rows := [] } }

/-- The comparator a.pageNumber - b.pageNumber on table pages. -/
def tablePageLe (a b : TablePage) : Prop := a.pageNumber ≤ b.pageNumber

instance : DecidableRel tablePageLe := fun a b => Nat.decLe _ _

instance : IsTotal TablePage tablePageLe :=
  ⟨fun a b => Nat.le_total a.pageNumber b.pageNumber⟩

instance : IsTrans TablePage tablePageLe :=
  ⟨fun _ _ _ h1 h2 => Nat.le_trans h1 h2⟩

/-- The final sort of extractedData.pages by pageNumber. -/
def sortTablePages (l : List TablePage) : List TablePage :=
  l.insertionSort tablePageLe

/-- The page loop of the endpooint: one entry per page 1..pageCount, then
the final ascending sort. -/
def extractTablePages (oracle : Nat → Nat → Option (List (List String)))
    (headers : List String) (pageCount : Nat) : List TablePage :=
  sortTablePages
    ((List.range pageCount).map (fun k => extractPageEntry oracle headers (k + 1)))

/-- POST extract-table-data after page counting: run the header phase (an
error there ends the request with success false), resolve the headers, then
run the page loop; the page loop itself never fails. -/
def extractTableDataEndpoint (pageCount : Nat) (hOracle : Nat → HeaderOutcome)
    (pOracle : Nat → Nat → Option (List (List String))) :
    Except String (List TablePage) :=
  match headerLoop hOracle with
  | Except.error m => Except.error m
  | Except.ok v => Except.ok (extractTablePages pOracle (resolveHeaders v) pageCount)

lemma extractTablePages_eq_map (oracle : Nat → Nat → Option (List (List String)))
    (headers : List String) (pageCount : Nat) :
    extractTablePages oracle headers pageCount =
      (List.range pageCount).map (fun k => extractPageEntry oracle headers (k + 1)) := by
  unfold extractTablePages sortTablePages
  apply List.Sorted.insertionSort_eq
  apply List.pairwise_map.mpr
  have hbase : (List.range pageCount).Pairwise (· < ·) :=
    List.pairwise_lt_range pageCount
  apply hbase.imp
  intro a b hab
  show (extractPageEntry oracle headers (a + 1)).pageNumber ≤
    (extractPageEntry oracle headers (b + 1)).pageNumber
  have ha : (extractPageEntry oracle headers (a + 1)).pageNumber = a + 1 := by
    unfold extractPageEntry
    rcases h : pageAttempts (oracle (a + 1)) <;> simp [h]
  have hb : (extractPageEntry oracle headers (b + 1)).pageNumber = b + 1 := by
    unfold extractPageEntry
    rcases h : pageAttempts (oracle (b + 1)) <;> simp [h]
  rw [ha, hb]
  omega

lemma extractPageEntry_pageNumber (oracle : Nat → Nat → Option (List (List String)))
    (headers : List String) (p : Nat) :
    (extractPageEntry oracle headers p).pageNumber = p := by
  unfold extractPageEntry
  rcases h : pageAttempts (oracle p) <;> simp [h]

lemma extractPageEntry_headers (oracle : Nat → Nat → Option (List (List String)))
    (headers : List String) (p : Nat) :
    (extractPageEntry oracle headers p).tableData.headers = headers := by
  unfold extractPageEntry
  rcases h : pageAttempts (oracle p) <;> simp [h]

/-- C3: in table mode (with the header phase done), the result is success
and contains exactly one entry per page 1..pageCount in ascending order, and
a page whose five attempts all fail contributes an entry with empty rows and
the shared headers, instead of failing the request or dropping pages. -/
theorem C3_table_degrade (pageCount : Nat) (hpc : 1 ≤ pageCount)
    (hOracle : Nat → HeaderOutcome)
    (pOracle : Nat → Nat → Option (List (List String)))
    (v : Option (List String)) (hheader : headerLoop hOracle = Except.ok v) :
    ∃ result, extractTableDataEndpoint pageCount hOracle pOracle = Except.ok result ∧
      result.length = pageCount ∧
      (∀ i (hi : i < result.length), (result.get ⟨i, hi⟩).pageNumber = i + 1) ∧
      (∀ p, 1 ≤ p → p ≤ pageCount →
        (∀ a, 1 ≤ a → a ≤ 5 → pOracle p a = none) →
        ∃ hp : p - 1 < result.length,
          (result.get ⟨p - 1, hp⟩).tableData =
            { headers := resolveHeaders v, rows := [] }) := by
  have hend : extractTableDataEndpoint pageCount hOracle pOracle =
      Except.ok (extractTablePages pOracle (resolveHeaders v) pageCount) := by
    unfold extractTableDataEndpoint
    rw [hheader]
  refine ⟨(List.range pageCount).map
    (fun k => extractPageEntry pOracle (resolveHeaders v) (k + 1)), ?_, ?_, ?_, ?_⟩
  · rw [hend, extractTablePages_eq_map]
  · simp
  · intro i hi
    simp only [List.get_eq_getElem, List.getElem_map, List.getElem_range]
    exact extractPageEntry_pageNumber _ _ _
  · intro p hp1 hp2 hfails
    have hattempts : pageAttempts (pOracle p) = none := by
      unfold pageAttempts
      apply List.findSome?_eq_none_iff.mpr
      intro k hk
      rw [List.mem_range] at hk
      exact hfails (k + 1) (by omega) (by omega)
    have hlen : p - 1 < ((List.range pageCount).map
        (fun k => extractPageEntry pOracle (resolveHeaders v) (k + 1))).length := by
      simp
      omega
    refine ⟨hlen, ?_⟩
    simp only [List.get_eq_getElem, List.getElem_map, List.getElem_range]
    rw [show p - 1 + 1 = p from by omega]
    unfold extractPageEntry
    rw [hattempts]

/-- Witness for C3 at pageCount = 2, headers parsed as [Col], page 1 never
succeeding and page 2 succeeding immediately. -/
theorem C3_table_degrade_witness :
    ∃ result, extractTableDataEndpoint 2
        (fun _ => HeaderOutcome.parsed (some ["Col"]))
        (fun p _ => if p = 2 then some [["a"]] else none) = Except.ok result ∧
      result.length = 2 ∧
      (∀ i (hi : i < result.length), (result.get ⟨i, hi⟩).pageNumber = i + 1) ∧
      (∀ p, 1 ≤ p → p ≤ 2 →
        (∀ a, 1 ≤ a → a ≤ 5 →
          (fun p _ => if p = 2 then some [["a"]] else none : Nat → Nat →
            Option (List (List String))) p a = none) →
        ∃ hp : p - 1 < result.length,
          (result.get ⟨p - 1, hp⟩).tableData =
            { headers := resolveHeaders (some ["Col"]), rows := [] }) :=
  C3_table_degrade 2 (by decide) (fun _ => HeaderOutcome.parsed (some ["Col"]))
    (fun p _ => if p = 2 then some [["a"]] else none) (some ["Col"]) (by rfl)

/-- C5 counterexample: when all three header attempts fail (here with a
parse error message), the endpoint does not fall back to the default
headers; it rethrows the third error and the request fails, for any page
count and page oracle. -/
theorem C5_counterexample :
    extractTableDataEndpoint 2 (fun _ => HeaderOutcome.err "Unexpected token")
      (fun _ _ => none) = Except.error "Unexpected token" := by rfl

/-- C5 amended: if every one of the 3 header attempts throws or fails to
parse, the pipeline aborts with the third error instead of falling back;
the default headers [Date, Description, Amount, Balance] are used exactly
when some attempt parses successfully but yields a falsy, non-array, or
empty-array value, and in that case every returned page entry carries the
default headers. -/
theorem C5_header_fallback_amended (pageCount : Nat)
    (hOracle : Nat → HeaderOutcome)
    (pOracle : Nat → Nat → Option (List (List String))) :
    ((∀ a, 1 ≤ a → a ≤ HEADER_MAX_ATTEMPTS → ∃ m, hOracle a = HeaderOutcome.err m) →
      ∃ m, hOracle HEADER_MAX_ATTEMPTS = HeaderOutcome.err m ∧
        extractTableDataEndpoint pageCount hOracle pOracle = Except.error m) ∧
    (∀ v, headerLoop hOracle = Except.ok v → (v = none ∨ v = some []) →
      extractTableDataEndpoint pageCount hOracle pOracle =
        Except.ok (extractTablePages pOracle defaultHeaders pageCount) ∧
      ∀ entry ∈ extractTablePages pOracle defaultHeaders pageCount,
        entry.tableData.headers = defaultHeaders) := by
  constructor
  · intro hall
    obtain ⟨m1, hm1⟩ := hall 1 (by decide) (by decide)
    obtain ⟨m2, hm2⟩ := hall 2 (by decide) (by decide)
    obtain ⟨m3, hm3⟩ := hall 3 (by decide) (by decide)
    refine ⟨m3, hm3, ?_⟩
    have hloop : headerLoop hOracle = Except.error m3 := by
      simp [headerLoop, headerLoopFuel, HEADER_MAX_ATTEMPTS, hm1, hm2, hm3]
    unfold extractTableDataEndpoint
    rw [hloop]
  · intro v hv hshape
    have hres : resolveHeaders v = defaultHeaders := by
      rcases hshape with h | h <;> subst h <;> rfl
    constructor
    · have hend : extractTableDataEndpoint pageCount hOracle pOracle =
          Except.ok (extractTablePages pOracle (resolveHeaders v) pageCount) := by
        unfold extractTableDataEndpoint
        rw [hv]
      rw [hend, hres]
    · intro entry hmem
      have hperm := List.perm_insertionSort tablePageLe
        ((List.range pageCount).map
          (fun k => extractPageEntry pOracle defaultHeaders (k + 1)))
      have hmem2 : entry ∈ (List.range pageCount).map
          (fun k => extractPageEntry pOracle defaultHeaders (k + 1)) :=
        hperm.mem_iff.mp hmem
      obtain ⟨k, _, rfl⟩ := List.mem_map.mp hmem2
      exact extractPageEntry_headers _ _ _

/-- Witness for the amended C5: both branches at concrete oracles. -/
theorem C5_header_fallback_amended_witness :
    (∃ m, (fun _ => HeaderOutcome.err "bad json") HEADER_MAX_ATTEMPTS =
        HeaderOutcome.err m ∧
      extractTableDataEndpoint 1 (fun _ => HeaderOutcome.err "bad json")
        (fun _ _ => none) = Except.error m) ∧
    (extractTableDataEndpoint 1 (fun _ => HeaderOutcome.parsed none)
        (fun _ _ => none) =
      Except.ok (extractTablePages (fun _ _ => none) defaultHeaders 1) ∧
      ∀ entry ∈ extractTablePages (fun _ _ => none) defaultHeaders 1,
        entry.tableData.headers = defaultHeaders) :=
  ⟨(C5_header_fallback_amended 1 (fun _ => HeaderOutcome.err "bad json")
      (fun _ _ => none)).1
    (fun a _ _ => ⟨"bad json", rfl⟩),
   (C5_header_fallback_amended 1 (fun _ => HeaderOutcome.parsed none)
      (fun _ _ => none)).2 none (by rfl) (Or.inl rfl)⟩

/-! ### PDF merge (PDFHandler.mergeBase64PDFs, POST merge-pdfs) -/

/-- One input of the merge loop: a falsy entry (skipped with a warning), an
input whose PDFDocument.load throws (logged and skipped, loop continues), or
a parsable document with its ordered page list. -/
inductive PdfInput where
  | empty
  | unparsable
  | doc (pages : List String)
deriving DecidableEq, Repr

/-- The pages an input contributes to the merge. -/
def inputPages : PdfInput → List String
  | PdfInput.doc pages => pages
  | _ => []

/-- PDFHandler.mergeBase64PDFs: walk the inputs in order; skip empty and
unparsable ones, copy all pages of each parsable document into the merged
document in order. -/
def mergeBase64PDFs (inputs : List PdfInput) : List String :=
  inputs.foldl
    (fun mergedPages i =>
      match i with
      | PdfInput.empty => mergedPages
      | PdfInput.unparsable => mergedPages
      | PdfInput.doc pages => mergedPages ++ pages)
    []

lemma mergeFold_from (inputs : List PdfInput) :
    ∀ acc, inputs.foldl
        (fun mergedPages i =>
          match i with
          | PdfInput.empty => mergedPages
          | PdfInput.unparsable => mergedPages
          | PdfInput.doc pages => mergedPages ++ pages)
        acc = acc ++ (inputs.map inputPages).flatten := by
  induction inputs with
  | nil => intro acc; simp
  | cons i rest ih =>
      intro acc
      rcases i with _ | _ | pages <;>
        simp [List.foldl_cons, ih, inputPages, List.append_assoc]

/-- C9: merging concatenates the pages of all parsable inputs in input
order; an unparsable input is skipped and the merge continues unchanged; the
scenario A(3 pages) then B(2 pages) gives the 5 pages A1,A2,A3,B1,B2. -/
theorem C9_merge_concat :
    (∀ inputs : List PdfInput,
      mergeBase64PDFs inputs = (inputs.map inputPages).flatten) ∧
    (∀ pre post : List PdfInput,
      mergeBase64PDFs (pre ++ PdfInput.unparsable :: post) =
        mergeBase64PDFs (pre ++ post)) ∧
    mergeBase64PDFs [PdfInput.doc ["A1", "A2", "A3"], PdfInput.doc ["B1", "B2"]] =
      ["A1", "A2", "A3", "B1", "B2"] ∧
    (mergeBase64PDFs [PdfInput.doc ["A1", "A2", "A3"],
      PdfInput.doc ["B1", "B2"]]).length = 5 := by
  have hgen : ∀ inputs : List PdfInput,
      mergeBase64PDFs inputs = (inputs.map inputPages).flatten := by
    intro inputs
    unfold mergeBase64PDFs
    simpa using mergeFold_from inputs []
  refine ⟨hgen, ?_, by decide, by decide⟩
  intro pre post
  rw [hgen, hgen]
  simp [inputPages]

/-- The JSON response of POST merge-pdfs: a 400 for a missing or non-array
pdfs field, a success envelope with the merged base64, or a 500 with the
error message. -/
inductive MergeResponse where
  | badRequest (error : String)
  | okMerged (mergedPDF : String)
  | serverError (error : String)
deriving DecidableEq, Repr

/-- The POST merge-pdfs handler: reject a missing or non-array body (none);
if the array has exactly one element, echo it back as mergedPDF without
touching the merge implementation; otherwise run the merge, converting a
thrown error into a 500. -/
def mergePdfsHandler (pdfs : Option (List String))
    (mergeImpl : List String → Except String String) : MergeResponse :=
  match pdfs with
  | none => MergeResponse.badRequest "Invalid input: pdfs array is required"
  | some ps =>
      match ps with
      | [single] => MergeResponse.okMerged single
      | _ =>
          match mergeImpl ps with
          | Except.ok merged => MergeResponse.okMerged merged
          | Except.error e => MergeResponse.serverError e

/-- C10: a one-element pdfs array is echoed back as a success response
byte-for-byte, for every merge implementation, so the input is never parsed
or re-encoded; in particular a string that is not a PDF at all comes back
with success true even under a merge implementation that would reject it. -/
theorem C10_single_input_echo :
    (∀ (x : String) (mergeImpl : List String → Except String String),
      mergePdfsHandler (some [x]) mergeImpl = MergeResponse.okMerged x) ∧
    mergePdfsHandler (some ["this is not a pdf"])
        (fun _ => Except.error "Failed to merge PDF files: load error") =
      MergeResponse.okMerged "this is not a pdf" := by
  exact ⟨fun x mergeImpl => rfl, rfl⟩

end DocExtract
